import Mathlib

/-!
Verification development for the DIGGGIN repository.

The repository contains several parallel implementations of a CSV → record →
filter pipeline.  This file gives a shallow embedding of the pipeline code:

* threejs-app/js/data.js                (class DataProcessor)
* src/data/dataLoader.js                (class DataLoader, post-Papa stages)
* src/three/cratediggerVisualizer.js    (parseCSVData, getUniqueValues, filterArtworks)
* threejs-app/js/simple-filters.js      (class SimpleFilterManager)
* the unnamed CSV parser module         (class CSVParser)

JavaScript strings are embedded as List Char; a missing/undefined string
property and the empty string are both falsy in the source, so both are
represented by the empty list.  JS objects appearing as records are embedded
as structures.
-/

/-- ASCII-faithful embedding of JS String.prototype.toLowerCase (all data in
the repository is ASCII). -/
def toLowerStr (s : List Char) : List Char := s.map Char.toLower

/-- Embedding of JS String.prototype.trim. -/
def trimStr (s : List Char) : List Char :=
  ((s.dropWhile Char.isWhitespace).reverse.dropWhile Char.isWhitespace).reverse

/-- Worker for splitOnChar. -/
def splitOnCharGo (sep : Char) : List Char → List Char → List (List Char)
  | [], acc => [acc.reverse]
  | c :: rest, acc =>
    if c = sep then acc.reverse :: splitOnCharGo sep rest []
    else splitOnCharGo sep rest (c :: acc)

/-- Embedding of JS String.prototype.split with a single-character separator:
splitOnChar sep s cuts s at every occurrence of sep (an empty input yields
one empty field, as in JS). -/
def splitOnChar (sep : Char) (s : List Char) : List (List Char) :=
  splitOnCharGo sep s []

/-- Embedding of JS String.prototype.startsWith restricted to what we need:
needle is a prefix of hay. -/
def isPrefixL : List Char → List Char → Bool
  | [], _ => true
  | _ :: _, [] => false
  | c :: cs, d :: ds => decide (c = d) && isPrefixL cs ds

/-- Embedding of JS String.prototype.includes: needle occurs as a contiguous
substring of hay (the empty needle always occurs). -/
def includesList (needle : List Char) : List Char → Bool
  | [] => needle.isEmpty
  | d :: ds => isPrefixL needle (d :: ds) || includesList needle ds

/-- Embedding of JS Array.prototype.join with separator a single space. -/
def joinSpace : List (List Char) → List Char
  | [] => []
  | [x] => x
  | x :: y :: rest => x ++ ' ' :: joinSpace (y :: rest)

/-- Embedding of JS Set.prototype.add on an insertion-ordered set represented
as a duplicate-free list: append the element if it is not present yet. -/
def setAdd {α : Type} [DecidableEq α] (s : List α) (x : α) : List α :=
  if x ∈ s then s else s ++ [x]

/-- Embedding of the JS idiom Array.from(new Set(a)) (also of the
filter-by-indexOf deduplication idiom): keep the first occurrence of every
element, in order. -/
def dedupFirst {α : Type} [DecidableEq α] (l : List α) : List α :=
  l.foldl setAdd []

/-- An Option-valued JS string property is active (truthy) iff it is present
and non-empty. -/
def optActive : Option (List Char) → Bool
  | none => false
  | some s => !s.isEmpty

/-! ## threejs-app/js/data.js : class DataProcessor -/

/-- The record object built by DataProcessor.createRecord (data.js).
textureLoaded/visible are constant presentation flags and are omitted. -/
structure Rec where
  id : Nat
  cover : List Char
  artworkName : List Char
  genre : List Char
  artist : List Char
  songTitle : List Char
  artisticCategory : List Char
  mood : List Char
  colors : List (List Char)
  collections : List (List Char)
  searchTerms : List Char
deriving DecidableEq, Repr

/-- The mutable state of a DataProcessor instance (data.js constructor):
the accumulated records plus the four metadata Sets. -/
structure DataProcessor where
  records : List Rec
  genres : List (List Char)
  artists : List (List Char)
  moods : List (List Char)
  collections : List (List Char)
deriving DecidableEq, Repr

/-- A freshly constructed DataProcessor (data.js constructor). -/
def DataProcessor.new : DataProcessor := ⟨[], [], [], [], []⟩

/-- data.js DataProcessor.parseCSVRow: a per-character scan where a quote
opens a quoted region only at position 0 or right after a comma, and closes
it only at end of line or right before a comma; fields are trimmed.
Arguments: previous character (none at position 0), current field (reversed),
inQuotes flag, emitted fields (reversed), remaining input. -/
def parseCSVRowGo : Option Char → List Char → Bool → List (List Char) → List Char → List (List Char)
  | _, current, _, acc, [] => (trimStr current.reverse :: acc).reverse
  | prev, current, inQuotes, acc, c :: rest =>
    if c = '"' ∧ (prev = none ∨ prev = some ',') then
      parseCSVRowGo (some c) current true acc rest
    else if c = '"' ∧ inQuotes ∧ (rest = [] ∨ rest.head? = some ',') then
      parseCSVRowGo (some c) current false acc rest
    else if c = ',' ∧ inQuotes = false then
      parseCSVRowGo (some c) [] inQuotes (trimStr current.reverse :: acc) rest
    else
      parseCSVRowGo (some c) (c :: current) inQuotes acc rest

/-- data.js DataProcessor.parseCSVRow. -/
def DataProcessor.parseCSVRow (row : List Char) : List (List Char) :=
  parseCSVRowGo none [] false [] row

/-- JS row[i] || '' : out-of-range access yields undefined, which the
source coerces to the empty string. -/
def fieldAt (row : List (List Char)) (i : Nat) : List Char := row.getD i []

/-- data.js DataProcessor.parseColors: lowercase, split on comma, trim each
token, drop empty tokens (no deduplication in the source). -/
def DataProcessor.parseColors (colorText : List Char) : List (List Char) :=
  if colorText = [] then []
  else ((splitOnChar ',' (toLowerStr colorText)).map trimStr).filter (fun c => !c.isEmpty)

/-- data.js DataProcessor.parseCollections: identical token pipeline to
parseColors (no deduplication in the source). -/
def DataProcessor.parseCollections (collectionText : List Char) : List (List Char) :=
  if collectionText = [] then []
  else ((splitOnChar ',' (toLowerStr collectionText)).map trimStr).filter (fun t => !t.isEmpty)

/-- data.js DataProcessor.createRecord: purely positional field extraction
(row[0] … row[8]), with searchTerms the lowercased space-join of the display
fields, colors and collections.  The source wraps the body in try/catch, but
no statement in the body can throw, so the embedding is total; the headers
argument is unused in the source body as well. -/
def DataProcessor.createRecord (_headers : List (List Char)) (row : List (List Char)) (index : Nat) : Rec :=
  let colors := DataProcessor.parseColors (fieldAt row 7)
  let collections := DataProcessor.parseCollections (fieldAt row 8)
  let base : Rec :=
    { id := index
      cover := fieldAt row 0
      artworkName := fieldAt row 1
      genre := fieldAt row 2
      artist := fieldAt row 3
      songTitle := fieldAt row 4
      artisticCategory := fieldAt row 5
      mood := fieldAt row 6
      colors := colors
      collections := collections
      searchTerms := [] }
  { base with
      searchTerms := toLowerStr (joinSpace
        ([base.artworkName, base.genre, base.artist, base.songTitle,
          base.artisticCategory, base.mood] ++ base.colors ++ base.collections)) }

/-- data.js DataProcessor.extractMetadata: add the record's scalar dimensions
(when truthy) and every collection token to the metadata Sets. -/
def DataProcessor.extractMetadata (proc : DataProcessor) (record : Rec) : DataProcessor :=
  { proc with
      genres := if record.genre ≠ [] then setAdd proc.genres record.genre else proc.genres
      artists := if record.artist ≠ [] then setAdd proc.artists record.artist else proc.artists
      moods := if record.mood ≠ [] then setAdd proc.moods record.mood else proc.moods
      collections := record.collections.foldl setAdd proc.collections }

/-- The data-line loop of data.js DataProcessor.parseCSV: for each line i
(starting at 1), parse it and, when the field count is at least the header
count, push createRecord and extract metadata. -/
def DataProcessor.parseCSVLoop (headers : List (List Char)) : DataProcessor → Nat → List (List Char) → DataProcessor
  | proc, _, [] => proc
  | proc, i, line :: rest =>
    let row := DataProcessor.parseCSVRow line
    if headers.length ≤ row.length then
      let record := DataProcessor.createRecord headers row i
      DataProcessor.parseCSVLoop headers
        (DataProcessor.extractMetadata { proc with records := proc.records ++ [record] } record)
        (i + 1) rest
    else
      DataProcessor.parseCSVLoop headers proc (i + 1) rest

/-- data.js DataProcessor.parseCSV: trim the input, split into lines, parse
line 0 as the header, then run the data-line loop; the JS method returns
this.records, i.e. the records component of the resulting state.  There is
no minimum-line-count check and no error path in the source. -/
def DataProcessor.parseCSV (proc : DataProcessor) (csvData : List Char) : DataProcessor :=
  let lines := splitOnChar '\n' (trimStr csvData)
  let headers := DataProcessor.parseCSVRow (lines.headD [])
  DataProcessor.parseCSVLoop headers proc 1 (lines.drop 1)

/-- data.js DataProcessor.getFilterOptions returns this shape. -/
structure DPFilterOptions where
  genres : List (List Char)
  artists : List (List Char)
  moods : List (List Char)
  collections : List (List Char)
deriving DecidableEq, Repr

/-- Boolean lexicographic (code-point) order on strings: the comparison JS
Array.prototype.sort applies to strings by default. -/
def strLeB : List Char → List Char → Bool
  | [], _ => true
  | _ :: _, [] => false
  | a :: as, b :: bs =>
    if a.toNat < b.toNat then true
    else if b.toNat < a.toNat then false
    else strLeB as bs

/-- Propositional form of strLeB. -/
def strLe (a b : List Char) : Prop := strLeB a b = true

instance : DecidableRel strLe := fun a b => instDecidableEqBool (strLeB a b) true

/-- data.js DataProcessor.getFilterOptions: Array.from(set).sort() on each
metadata Set. -/
def DataProcessor.getFilterOptions (proc : DataProcessor) : DPFilterOptions :=
  { genres := List.insertionSort strLe proc.genres
    artists := List.insertionSort strLe proc.artists
    moods := List.insertionSort strLe proc.moods
    collections := List.insertionSort strLe proc.collections }

/-- The filter-criteria object accepted by data.js
DataProcessor.filterRecords: every predicate optional. -/
structure DPFilters where
  search : Option (List Char) := none
  genre : Option (List Char) := none
  artist : Option (List Char) := none
  mood : Option (List Char) := none
  collection : Option (List Char) := none
deriving DecidableEq, Repr

/-- data.js DataProcessor.filterRecords: free-text search is substring
containment against searchTerms (with the manual join fallback when
searchTerms is falsy), but genre/artist/mood are exact strict equality and
collection is exact array membership. -/
def DataProcessor.filterRecords (proc : DataProcessor) (filters : DPFilters) : List Rec :=
  proc.records.filter fun record =>
    (match filters.search with
     | some s =>
       if s.isEmpty then true
       else
         let searchTerm := toLowerStr s
         let searchableText :=
           if record.searchTerms.isEmpty then
             toLowerStr (joinSpace
               ([record.artworkName, record.genre, record.artist, record.songTitle,
                 record.artisticCategory, record.mood] ++ record.colors ++ record.collections))
           else record.searchTerms
         includesList searchTerm searchableText
     | none => true) &&
    (match filters.genre with
     | some g => if g.isEmpty then true else decide (record.genre = g)
     | none => true) &&
    (match filters.artist with
     | some a => if a.isEmpty then true else decide (record.artist = a)
     | none => true) &&
    (match filters.mood with
     | some m => if m.isEmpty then true else decide (record.mood = m)
     | none => true) &&
    (match filters.collection with
     | some c => if c.isEmpty then true else decide (c ∈ record.collections)
     | none => true)

/-! ## src/data/dataLoader.js : class DataLoader

Papa.parse (an external library) produces rows keyed by snake_cased headers;
processData and the parse/search/filter helpers below are the repository's
own code and operate on those rows.  A RawRow field that is absent or empty
is falsy in JS; both are embedded as the empty list. -/

/-- One row as delivered by Papa.parse in dataLoader.js (header:true with
snake_cased header names). -/
structure RawRow where
  cover : List Char := []
  artwork_name : List Char := []
  song_genre : List Char := []
  artist : List Char := []
  song_title : List Char := []
  artistic_category : List Char := []
  mood : List Char := []
  year : List Char := []
  collections : List Char := []
deriving DecidableEq, Repr

/-- The processed item built by DataLoader.processData. -/
structure LoadedItem where
  id : Nat
  cover : List Char
  artworkName : List Char
  songGenre : List Char
  artist : List Char
  songTitle : List Char
  artisticCategory : List Char
  mood : List Char
  year : List Char
  collections : List (List Char)
  colors : List (List Char)
  tags : List (List Char)
deriving DecidableEq, Repr

/-- JS v || d for strings: the default applies when v is empty/missing. -/
def orDefault (v d : List Char) : List Char := if v = [] then d else v

/-- The closed color/tone vocabulary of the dataLoader.js colorRegex
(alternatives in source order). -/
def colorVocab : List (List Char) :=
  ["red", "green", "blue", "yellow", "orange", "purple", "pink", "black",
   "white", "brown", "gold", "vibrant", "dark", "cool", "warm"].map String.data

/-- JS regex word character class \w = [A-Za-z0-9_] (ASCII). -/
def isWordChar (c : Char) : Bool := c.isAlpha || c.isDigit || c = '_'

/-- Case-insensitive match of the (lowercase) pattern word against the head
of the input. -/
def matchesCI : List Char → List Char → Bool
  | [], _ => true
  | _ :: _, [] => false
  | c :: cs, d :: ds => decide (Char.toLower d = c) && matchesCI cs ds

/-- The \b word-boundary test after a match: end of input or a non-word
character (every vocabulary word ends in a letter). -/
def boundaryAfter : List Char → Bool
  | [] => true
  | c :: _ => !isWordChar c

/-- Try the regex alternatives in order at the current position: the first
vocabulary word that matches case-insensitively and is followed by a word
boundary wins. -/
def tryWords : List (List Char) → List Char → Option (List Char)
  | [], _ => none
  | w :: ws, s =>
    if matchesCI w s && boundaryAfter (s.drop w.length) then some w
    else tryWords ws s

/-- The global scan of colorInfo.match(colorRegex): at every position with a
word boundary before it (tracked by whether the previous character is a word
character), match the first possible alternative, emit the matched slice of
the original text, and resume right after it.  The scan consumes at least one
character per step, so a fuel of the input length (as supplied by scanColors)
makes the recursion structural without changing the result. -/
def scanColorsFuel : Nat → Bool → List Char → List (List Char)
  | 0, _, _ => []
  | _ + 1, _, [] => []
  | fuel + 1, prevIsWord, c :: rest =>
    if prevIsWord then scanColorsFuel fuel (isWordChar c) rest
    else
      match tryWords colorVocab (c :: rest) with
      | some w => (c :: rest).take w.length :: scanColorsFuel fuel true ((c :: rest).drop w.length)
      | none => scanColorsFuel fuel (isWordChar c) rest

/-- The regex scan at word-boundary start (position 0 of the text). -/
def scanColors (s : List Char) : List (List Char) :=
  scanColorsFuel s.length false s

/-- dataLoader.js DataLoader.parseColors: run the color regex over the
text, lowercase each match, deduplicate via Set. -/
def DataLoader.parseColors (colorInfo : List Char) : List (List Char) :=
  if colorInfo = [] then []
  else dedupFirst ((scanColors colorInfo).map toLowerStr)

/-- dataLoader.js DataLoader.parseCollections: split on comma, trim and
lowercase each token.  The source neither drops empty tokens nor
deduplicates. -/
def DataLoader.parseCollections (collections : List Char) : List (List Char) :=
  if collections = [] then []
  else (splitOnChar ',' collections).map (fun tag => toLowerStr (trimStr tag))

/-- dataLoader.js DataLoader.parseTags: like parseCollections but
deduplicated via Set (empty tokens are still kept). -/
def DataLoader.parseTags (collections : List Char) : List (List Char) :=
  if collections = [] then []
  else dedupFirst ((splitOnChar ',' collections).map (fun tag => toLowerStr (trimStr tag)))

/-- The per-row mapping inside DataLoader.processData (the arrow function
given to .map, with index the position in the filtered array).  The source
reads colors from the year column. -/
def DataLoader.processRow (index : Nat) (row : RawRow) : LoadedItem :=
  { id := index
    cover := row.cover
    artworkName := orDefault row.artwork_name "Untitled".data
    songGenre := orDefault row.song_genre "Unknown".data
    artist := row.artist
    songTitle := row.song_title
    artisticCategory := orDefault row.artistic_category "abstract".data
    mood := orDefault row.mood "neutral".data
    year := orDefault row.year "Unknown".data
    collections := DataLoader.parseCollections row.collections
    colors := DataLoader.parseColors row.year
    tags := DataLoader.parseTags row.collections }

/-- .map((row, index) => ...) over a list, threading the index. -/
def DataLoader.processGo : Nat → List RawRow → List LoadedItem
  | _, [] => []
  | i, row :: rest => DataLoader.processRow i row :: DataLoader.processGo (i + 1) rest

/-- dataLoader.js DataLoader.processData: drop rows missing cover, artist or
song_title, then map each remaining row (with its index in the filtered
array) to a LoadedItem. -/
def DataLoader.processData (rawData : List RawRow) : List LoadedItem :=
  DataLoader.processGo 0
    (rawData.filter fun row =>
      !row.cover.isEmpty && !row.artist.isEmpty && !row.song_title.isEmpty)

/-- dataLoader.js DataLoader.search over the loaded data: case-insensitive
substring test against each display field and the tags. -/
def DataLoader.search (data : List LoadedItem) (query : List Char) : List LoadedItem :=
  let q := toLowerStr query
  data.filter fun item =>
    includesList q (toLowerStr item.artist) ||
    includesList q (toLowerStr item.songTitle) ||
    includesList q (toLowerStr item.artworkName) ||
    includesList q (toLowerStr item.songGenre) ||
    includesList q (toLowerStr item.mood) ||
    item.tags.any (fun tag => includesList q tag)

/-- The object returned by dataLoader.js DataLoader.getFilterOptions. -/
structure DLFilterOptions where
  genres : List (List Char)
  moods : List (List Char)
  artists : List (List Char)
  colors : List (List Char)
  tags : List (List Char)
deriving DecidableEq, Repr

/-- dataLoader.js DataLoader.getFilterOptions: [...new Set(...)] on each
dimension (flatMap on the multi-value ones).  The source applies no sort. -/
def DataLoader.getFilterOptions (data : List LoadedItem) : DLFilterOptions :=
  { genres := dedupFirst (data.map (fun item => item.songGenre))
    moods := dedupFirst (data.map (fun item => item.mood))
    artists := dedupFirst (data.map (fun item => item.artist))
    colors := dedupFirst (data.flatMap (fun item => item.colors))
    tags := dedupFirst (data.flatMap (fun item => item.tags)) }

/-! ## src/three/cratediggerVisualizer.js : parseCSVData, getUniqueValues,
filterArtworks -/

/-- One row as delivered by Papa.parse in cratediggerVisualizer.js
(headers mapped to camelCase by the explicit headerMap). -/
structure CSVRow where
  cover : List Char := []
  artworkName : List Char := []
  songGenre : List Char := []
  artist : List Char := []
  songTitle : List Char := []
  artisticCategory : List Char := []
  mood : List Char := []
  year : List Char := []
  collections : List Char := []
deriving DecidableEq, Repr

/-- The Artwork shape of cratediggerVisualizer.js (collections stays a raw
comma-joined string there). -/
structure Artwork where
  cover : List Char
  artworkName : List Char
  songGenre : List Char
  artist : List Char
  songTitle : List Char
  artisticCategory : List Char
  mood : List Char
  year : List Char
  collections : List Char
deriving DecidableEq, Repr

/-- cratediggerVisualizer.js parseCSVData, post-Papa stage: keep rows whose
cover and artworkName are truthy (artist is not required), then copy fields
(item.x || '' is the identity under this embedding). -/
def parseCSVData (rows : List CSVRow) : List Artwork :=
  (rows.filter fun item => !item.cover.isEmpty && !item.artworkName.isEmpty).map
    fun item =>
      { cover := item.cover
        artworkName := item.artworkName
        songGenre := item.songGenre
        artist := item.artist
        songTitle := item.songTitle
        artisticCategory := item.artisticCategory
        mood := item.mood
        year := item.year
        collections := item.collections }

/-- cratediggerVisualizer.js getUniqueValues: map the field out, drop falsy
whole values, split comma-containing values into trimmed tokens (which may
be empty), deduplicate by first occurrence, sort. -/
def getUniqueValues (artworks : List Artwork) (field : Artwork → List Char) : List (List Char) :=
  List.insertionSort strLe
    (dedupFirst
      (((artworks.map field).filter (fun v => !v.isEmpty)).flatMap
        (fun value =>
          if value.contains ',' then (splitOnChar ',' value).map trimStr
          else [value])))

/-- The filters object of cratediggerVisualizer.js filterArtworks. -/
structure VFilters where
  genre : Option (List Char) := none
  mood : Option (List Char) := none
  category : Option (List Char) := none
  collection : Option (List Char) := none
  search : Option (List Char) := none
deriving DecidableEq, Repr

/-- The repeated guard of filterArtworks:
if (filters.x && !field.toLowerCase().includes(filters.x.toLowerCase()))
return false. -/
def vDimCheck (filt : Option (List Char)) (fieldVal : List Char) : Bool :=
  match filt with
  | some f => if f.isEmpty then true else includesList (toLowerStr f) (toLowerStr fieldVal)
  | none => true

/-- cratediggerVisualizer.js filterArtworks: free-text search against the
joined display fields, and case-insensitive substring containment for the
genre/mood/category/collection dimensions. -/
def filterArtworks (artworks : List Artwork) (filters : VFilters) : List Artwork :=
  artworks.filter fun artwork =>
    (match filters.search with
     | some s =>
       if s.isEmpty then true
       else
         includesList (toLowerStr s)
           (toLowerStr (joinSpace
             [artwork.artworkName, artwork.artist, artwork.songTitle,
              artwork.songGenre, artwork.mood, artwork.artisticCategory,
              artwork.collections]))
     | none => true) &&
    vDimCheck filters.genre artwork.songGenre &&
    vDimCheck filters.mood artwork.mood &&
    vDimCheck filters.category artwork.artisticCategory &&
    vDimCheck filters.collection artwork.collections

/-! ## threejs-app/js/simple-filters.js : class SimpleFilterManager -/

/-- The filters object of SimpleFilterManager.applyFilters. -/
structure SimpleFilters where
  search : Option (List Char) := none
  genre : Option (List Char) := none
  mood : Option (List Char) := none
deriving DecidableEq, Repr

/-- simple-filters.js SimpleFilterManager.applyFilters, as the pure filter it
performs on this.allRecords: the search guard requires the trimmed text to be
truthy (but the untrimmed text is what gets matched), while genre and mood
are exact strict equality. -/
def SimpleFilterManager.applyFilters (allRecords : List Rec) (filters : SimpleFilters) : List Rec :=
  allRecords.filter fun record =>
    (match filters.search with
     | some s =>
       if !s.isEmpty && !(trimStr s).isEmpty then
         includesList (toLowerStr s)
           (toLowerStr (joinSpace
             ([record.artworkName, record.artist, record.songTitle,
               record.genre, record.mood] ++ record.colors ++ record.collections)))
       else true
     | none => true) &&
    (match filters.genre with
     | some g => if g.isEmpty then true else decide (record.genre = g)
     | none => true) &&
    (match filters.mood with
     | some m => if m.isEmpty then true else decide (record.mood = m)
     | none => true)

/-! ## The unnamed CSV parser module : class CSVParser -/

/-- The typed field values CSVParser.parseCSV produces: plain strings, the
boolean hasSleeve field, and the parseInt-converted year field (none models
NaN). -/
inductive CSVValue where
  | str : List Char → CSVValue
  | flag : Bool → CSVValue
  | num : Option Int → CSVValue
deriving DecidableEq, Repr

/-- Leading decimal digits value, none when there is no digit (the NaN case
of parseInt). -/
def digitsVal (s : List Char) : Option Nat :=
  let ds := s.takeWhile Char.isDigit
  if ds = [] then none
  else some (ds.foldl (fun acc c => acc * 10 + (c.toNat - 48)) 0)

/-- JS parseInt(value, 10): skip leading whitespace, optional sign, then
leading digits; NaN (none) when no digit follows. -/
def jsParseInt (s : List Char) : Option Int :=
  match s.dropWhile Char.isWhitespace with
  | '-' :: rest => (digitsVal rest).map (fun n => -(n : Int))
  | '+' :: rest => (digitsVal rest).map (fun n => (n : Int))
  | rest => (digitsVal rest).map (fun n => (n : Int))

/-- CSVParser.parseCSVLine: the RFC4180-style state machine.  Inside quotes a
doubled quote emits one literal quote; a quote otherwise toggles the quote
state; a comma outside quotes ends the field.  Fields are not trimmed. -/
def parseCSVLineGo : Bool → List Char → List Char → List (List Char) → List (List Char)
  | _, current, [], acc => (current.reverse :: acc).reverse
  | true, current, '"' :: '"' :: rest2, acc => parseCSVLineGo true ('"' :: current) rest2 acc
  | true, current, '"' :: rest, acc => parseCSVLineGo false current rest acc
  | false, current, '"' :: rest, acc => parseCSVLineGo true current rest acc
  | inQuotes, current, c :: rest, acc =>
    if c = ',' ∧ inQuotes = false then
      parseCSVLineGo inQuotes [] rest (current.reverse :: acc)
    else parseCSVLineGo inQuotes (c :: current) rest acc

/-- CSVParser.parseCSVLine. -/
def CSVParser.parseCSVLine (line : List Char) : List (List Char) :=
  parseCSVLineGo false [] line []

/-- The per-header type conversion inside CSVParser.parseCSV. -/
def CSVParser.convertValue (header value : List Char) : CSVValue :=
  if header = "hasSleeve".data then CSVValue.flag (decide (toLowerStr value = "true".data))
  else if header = "year".data then CSVValue.num (jsParseInt value)
  else CSVValue.str value

/-- The record object built for one accepted data line: headers paired with
converted values. -/
def CSVParser.buildRecord (headers values : List (List Char)) : List (List Char × CSVValue) :=
  (headers.zip values).map fun hv => (hv.1, CSVParser.convertValue hv.1 hv.2)

/-- CSVParser.parseCSV: trim, split into lines, fail when fewer than two
lines remain, otherwise parse the header line and keep exactly the data
lines whose parsed field count equals the header field count. -/
def CSVParser.parseCSV (text : List Char) :
    Except (List Char) (List (List (List Char × CSVValue))) :=
  let lines := splitOnChar '\n' (trimStr text)
  if lines.length < 2 then
    Except.error "CSV must have at least a header and one data row".data
  else
    let headers := CSVParser.parseCSVLine (lines.headD [])
    Except.ok ((lines.drop 1).filterMap fun line =>
      let values := CSVParser.parseCSVLine line
      if values.length = headers.length then some (CSVParser.buildRecord headers values)
      else none)

/-! ## Auxiliary definitions used by the verification -/

/-- The records contributed by one run of the data-line loop of
DataProcessor.parseCSV, independent of the processor state it starts from. -/
def rowsToRecords (headers : List (List Char)) : Nat → List (List Char) → List Rec
  | _, [] => []
  | i, line :: rest =>
    let row := DataProcessor.parseCSVRow line
    if headers.length ≤ row.length then
      DataProcessor.createRecord headers row i :: rowsToRecords headers (i + 1) rest
    else rowsToRecords headers (i + 1) rest

/-- Invariant of the DataProcessor metadata Sets: duplicate-free and free of
the empty string.  A fresh processor satisfies it and parseCSV preserves
it. -/
def MetaOk (proc : DataProcessor) : Prop :=
  proc.genres.Nodup ∧ [] ∉ proc.genres ∧
  proc.artists.Nodup ∧ [] ∉ proc.artists ∧
  proc.moods.Nodup ∧ [] ∉ proc.moods ∧
  proc.collections.Nodup ∧ [] ∉ proc.collections

instance : ∀ proc, Decidable (MetaOk proc) := fun proc => by
  unfold MetaOk
  infer_instance

/-- A concrete record whose genre is "Jazz Fusion" (all other fields inert),
used to exhibit the equality-vs-substring divergence of the genre filter. -/
def recJF : Rec :=
  { id := 0, cover := "c".data, artworkName := "A".data, genre := "Jazz Fusion".data,
    artist := "X".data, songTitle := "T".data, artisticCategory := "ac".data,
    mood := "m".data, colors := [], collections := [], searchTerms := "blob".data }

/-- A loaded item with genre "rock" (other fields inert). -/
def itemRock : LoadedItem :=
  { id := 0, cover := "c".data, artworkName := "A".data, songGenre := "rock".data,
    artist := "X".data, songTitle := "T".data, artisticCategory := "ac".data,
    mood := "m".data, year := "y".data, collections := [], colors := [], tags := [] }

/-- A loaded item with genre "jazz" (other fields inert). -/
def itemJazz : LoadedItem :=
  { id := 1, cover := "c".data, artworkName := "A".data, songGenre := "jazz".data,
    artist := "X".data, songTitle := "T".data, artisticCategory := "ac".data,
    mood := "m".data, year := "y".data, collections := [], colors := [], tags := [] }

/-- An artwork whose collections string contains a blank token between
commas. -/
def awJazzRock : Artwork :=
  { cover := "c".data, artworkName := "A".data, songGenre := "g".data,
    artist := "X".data, songTitle := "T".data, artisticCategory := "ac".data,
    mood := "m".data, year := "y".data, collections := "jazz, ,rock".data }

/-- A loaded item all of whose searchable fields are single words (no
whitespace anywhere), used for the whitespace-search counterexample. -/
def itemOneWord : LoadedItem :=
  { id := 0, cover := "c".data, artworkName := "Art".data, songGenre := "Pop".data,
    artist := "Prince".data, songTitle := "Kiss".data, artisticCategory := "ac".data,
    mood := "Calm".data, year := "y".data, collections := [], colors := [],
    tags := ["funk".data] }

/-! ## Lemmas about the embedded operations -/

theorem strLeB_total (a b : List Char) : strLeB a b = true ∨ strLeB b a = true := by
  induction a generalizing b with
  | nil => left; rfl
  | cons x xs ih =>
    cases b with
    | nil => right; rfl
    | cons y ys =>
      rcases Nat.lt_trichotomy x.toNat y.toNat with h | h | h
      · left; simp [strLeB, h]
      · rcases ih ys with h2 | h2
        · left; simp [strLeB, h, h2]
        · right; simp [strLeB, h.symm, h2]
      · right; simp [strLeB, h]

theorem strLeB_trans (a b c : List Char) (hab : strLeB a b = true) (hbc : strLeB b c = true) :
    strLeB a c = true := by
  induction a generalizing b c with
  | nil => rfl
  | cons x xs ih =>
    cases b with
    | nil => simp [strLeB] at hab
    | cons y ys =>
      cases c with
      | nil => simp [strLeB] at hbc
      | cons z zs =>
        simp only [strLeB] at hab hbc ⊢
        rcases Nat.lt_trichotomy x.toNat y.toNat with h1 | h1 | h1
        · rcases Nat.lt_trichotomy y.toNat z.toNat with h2 | h2 | h2
          · simp [Nat.lt_trans h1 h2]
          · simp [h2 ▸ h1]
          · simp [Nat.lt_asymm h2, h2] at hbc
        · rw [if_neg (by omega), if_neg (by omega)] at hab
          rcases Nat.lt_trichotomy y.toNat z.toNat with h2 | h2 | h2
          · simp [show x.toNat < z.toNat by omega]
          · rw [if_neg (by omega), if_neg (by omega)] at hbc
            rw [if_neg (by omega), if_neg (by omega)]
            exact ih ys zs hab hbc
          · simp [Nat.lt_asymm h2, h2] at hbc
        · simp [Nat.lt_asymm h1, h1] at hab

instance : IsTotal (List Char) strLe := ⟨fun a b => strLeB_total a b⟩

instance : IsTrans (List Char) strLe := ⟨fun a b c => strLeB_trans a b c⟩

theorem includes_nil (hay : List Char) : includesList [] hay = true := by
  cases hay <;> simp [includesList, isPrefixL]

theorem setAdd_mem {α : Type} [DecidableEq α] {s : List α} {x y : α} :
    y ∈ setAdd s x ↔ y ∈ s ∨ y = x := by
  unfold setAdd
  split
  · next hx =>
    constructor
    · exact Or.inl
    · rintro (h | rfl)
      · exact h
      · exact hx
  · simp [List.mem_append]

theorem setAdd_nodup {α : Type} [DecidableEq α] {s : List α} (h : s.Nodup) (x : α) :
    (setAdd s x).Nodup := by
  unfold setAdd
  split
  · exact h
  · next hx => simp [List.nodup_append, h, hx]

theorem foldl_setAdd_mem {α : Type} [DecidableEq α] :
    ∀ (l acc : List α) (x : α), x ∈ l.foldl setAdd acc ↔ x ∈ acc ∨ x ∈ l := by
  intro l
  induction l with
  | nil => simp
  | cons y ys ih =>
    intro acc x
    simp only [List.foldl_cons, ih, setAdd_mem, List.mem_cons]
    tauto

theorem foldl_setAdd_nodup {α : Type} [DecidableEq α] :
    ∀ (l acc : List α), acc.Nodup → (l.foldl setAdd acc).Nodup := by
  intro l
  induction l with
  | nil => intro acc h; exact h
  | cons y ys ih => intro acc h; exact ih _ (setAdd_nodup h y)

theorem dedupFirst_nodup {α : Type} [DecidableEq α] (l : List α) : (dedupFirst l).Nodup :=
  foldl_setAdd_nodup l [] List.nodup_nil

theorem dedupFirst_mem {α : Type} [DecidableEq α] {l : List α} {x : α} :
    x ∈ dedupFirst l ↔ x ∈ l := by
  unfold dedupFirst
  rw [foldl_setAdd_mem]
  simp

theorem matchesCI_take : ∀ (w s : List Char), matchesCI w s = true →
    toLowerStr (s.take w.length) = w := by
  intro w
  induction w with
  | nil => intro s _; rfl
  | cons c cs ih =>
    intro s h
    cases s with
    | nil => simp [matchesCI] at h
    | cons d ds =>
      simp only [matchesCI, Bool.and_eq_true, decide_eq_true_eq] at h
      simp only [List.length_cons, List.take_succ_cons, toLowerStr, List.map_cons]
      rw [h.1]
      have h2 := ih ds h.2
      simp only [toLowerStr] at h2
      rw [h2]

theorem tryWords_mem {ws : List (List Char)} {s w : List Char}
    (h : tryWords ws s = some w) : w ∈ ws := by
  induction ws with
  | nil => simp [tryWords] at h
  | cons v vs ih =>
    simp only [tryWords] at h
    split at h
    · simp only [Option.some.injEq] at h
      subst h
      exact List.mem_cons_self _ _
    · exact List.mem_cons_of_mem _ (ih h)

theorem tryWords_matches {ws : List (List Char)} {s w : List Char}
    (h : tryWords ws s = some w) : matchesCI w s = true := by
  induction ws with
  | nil => simp [tryWords] at h
  | cons v vs ih =>
    simp only [tryWords] at h
    split at h
    · next hcond =>
      simp only [Option.some.injEq] at h
      subst h
      simp only [Bool.and_eq_true] at hcond
      exact hcond.1
    · exact ih h

theorem scanColorsFuel_mem : ∀ (fuel : Nat) (b : Bool) (s : List Char),
    ∀ x ∈ scanColorsFuel fuel b s, toLowerStr x ∈ colorVocab ∧ x ≠ [] := by
  intro fuel
  induction fuel with
  | zero => intro b s x hx; simp [scanColorsFuel] at hx
  | succ n ih =>
    intro b s x hx
    cases s with
    | nil => simp [scanColorsFuel] at hx
    | cons c rest =>
      simp only [scanColorsFuel] at hx
      split at hx
      · exact ih _ _ x hx
      · split at hx
        · next w heq =>
          rcases List.mem_cons.mp hx with rfl | hx2
          · have hm := tryWords_matches heq
            have hw : w ∈ colorVocab := tryWords_mem heq
            have htake := matchesCI_take w (c :: rest) hm
            refine ⟨by rw [htake]; exact hw, ?_⟩
            have hlen : 1 ≤ w.length := by
              have hv : ∀ v ∈ colorVocab, 1 ≤ v.length := by decide
              exact hv w hw
            intro hnil
            have : ((c :: rest).take w.length).length = 0 := by rw [hnil]; rfl
            simp only [List.length_take, List.length_cons] at this
            omega
          · exact ih _ _ x hx2
        · exact ih _ _ x hx

theorem processGo_mem : ∀ (l : List RawRow) (i : Nat) (x : LoadedItem),
    x ∈ DataLoader.processGo i l → ∃ j row, row ∈ l ∧ x = DataLoader.processRow j row := by
  intro l
  induction l with
  | nil => intro i x hx; simp [DataLoader.processGo] at hx
  | cons r rs ih =>
    intro i x hx
    simp only [DataLoader.processGo, List.mem_cons] at hx
    rcases hx with rfl | hx
    · exact ⟨i, r, List.mem_cons_self _ _, rfl⟩
    · obtain ⟨j, row, hrow, hx2⟩ := ih (i + 1) x hx
      exact ⟨j, row, List.mem_cons_of_mem _ hrow, hx2⟩

theorem parseCSVLoop_records (headers : List (List Char)) :
    ∀ (ls : List (List Char)) (proc : DataProcessor) (i : Nat),
      (DataProcessor.parseCSVLoop headers proc i ls).records =
        proc.records ++ rowsToRecords headers i ls := by
  intro ls
  induction ls with
  | nil => intro proc i; simp [DataProcessor.parseCSVLoop, rowsToRecords]
  | cons line rest ih =>
    intro proc i
    simp only [DataProcessor.parseCSVLoop, rowsToRecords]
    split
    · rw [ih]
      simp [DataProcessor.extractMetadata]
    · rw [ih]

theorem rowsToRecords_length (headers : List (List Char)) :
    ∀ (ls : List (List Char)) (i : Nat),
      (rowsToRecords headers i ls).length =
        ls.countP (fun line =>
          decide (headers.length ≤ (DataProcessor.parseCSVRow line).length)) := by
  intro ls
  induction ls with
  | nil => intro i; rfl
  | cons line rest ih =>
    intro i
    simp only [rowsToRecords, List.countP_cons]
    split
    · next h => simp [ih, h]
    · next h => simp [ih, h]

theorem parseCSV_ok_length (headers : List (List Char)) :
    ∀ ls : List (List Char),
      (ls.filterMap (fun line =>
        let values := CSVParser.parseCSVLine line
        if values.length = headers.length then some (CSVParser.buildRecord headers values)
        else none)).length
      = ls.countP (fun line =>
          decide ((CSVParser.parseCSVLine line).length = headers.length)) := by
  intro ls
  induction ls with
  | nil => rfl
  | cons line rest ih =>
    by_cases h : (CSVParser.parseCSVLine line).length = headers.length
    · simp [List.filterMap_cons, List.countP_cons, h, ih]
    · simp [List.filterMap_cons, List.countP_cons, h, ih]

theorem setAdd_not_nil {s : List (List Char)} (h : [] ∉ s) {x : List Char} (hx : x ≠ []) :
    [] ∉ setAdd s x := by
  simp only [setAdd_mem]
  rintro (h2 | h2)
  · exact h h2
  · exact hx h2.symm

theorem foldl_setAdd_not_nil : ∀ (l acc : List (List Char)),
    [] ∉ acc → (∀ t ∈ l, t ≠ []) → [] ∉ l.foldl setAdd acc := by
  intro l acc h1 h2
  rw [foldl_setAdd_mem]
  rintro (h | h)
  · exact h1 h
  · exact h2 [] h rfl

theorem dp_parseColors_not_nil (s : List Char) : [] ∉ DataProcessor.parseColors s := by
  unfold DataProcessor.parseColors
  split
  · simp
  · intro h
    have h2 := (List.mem_filter.mp h).2
    simp at h2

theorem dp_parseCollections_not_nil (s : List Char) : [] ∉ DataProcessor.parseCollections s := by
  unfold DataProcessor.parseCollections
  split
  · simp
  · intro h
    have h2 := (List.mem_filter.mp h).2
    simp at h2

theorem extractMetadata_metaOk {proc : DataProcessor} (h : MetaOk proc) {record : Rec}
    (hc : ∀ t ∈ record.collections, t ≠ []) :
    MetaOk (DataProcessor.extractMetadata proc record) := by
  obtain ⟨h1, h2, h3, h4, h5, h6, h7, h8⟩ := h
  unfold DataProcessor.extractMetadata MetaOk
  refine ⟨?_, ?_, ?_, ?_, ?_, ?_, ?_, ?_⟩ <;> simp only
  · split
    · exact setAdd_nodup h1 _
    · exact h1
  · split
    · next hg => exact setAdd_not_nil h2 hg
    · exact h2
  · split
    · exact setAdd_nodup h3 _
    · exact h3
  · split
    · next hg => exact setAdd_not_nil h4 hg
    · exact h4
  · split
    · exact setAdd_nodup h5 _
    · exact h5
  · split
    · next hg => exact setAdd_not_nil h6 hg
    · exact h6
  · exact foldl_setAdd_nodup _ _ h7
  · exact foldl_setAdd_not_nil _ _ h8 hc

theorem createRecord_collections_not_nil (headers row : List (List Char)) (i : Nat) :
    ∀ t ∈ (DataProcessor.createRecord headers row i).collections, t ≠ [] := by
  intro t ht hnil
  subst hnil
  exact dp_parseCollections_not_nil (fieldAt row 8) ht

theorem parseCSVLoop_metaOk (headers : List (List Char)) :
    ∀ (ls : List (List Char)) (proc : DataProcessor) (i : Nat), MetaOk proc →
      MetaOk (DataProcessor.parseCSVLoop headers proc i ls) := by
  intro ls
  induction ls with
  | nil => intro proc i h; exact h
  | cons line rest ih =>
    intro proc i h
    simp only [DataProcessor.parseCSVLoop]
    split
    · apply ih
      exact extractMetadata_metaOk h (createRecord_collections_not_nil headers _ i)
    · exact ih proc (i + 1) h

theorem metaOk_getFilterOptions {proc : DataProcessor} (h : MetaOk proc) :
    (List.Sorted strLe proc.getFilterOptions.genres ∧
      proc.getFilterOptions.genres.Nodup ∧ [] ∉ proc.getFilterOptions.genres) ∧
    (List.Sorted strLe proc.getFilterOptions.artists ∧
      proc.getFilterOptions.artists.Nodup ∧ [] ∉ proc.getFilterOptions.artists) ∧
    (List.Sorted strLe proc.getFilterOptions.moods ∧
      proc.getFilterOptions.moods.Nodup ∧ [] ∉ proc.getFilterOptions.moods) ∧
    (List.Sorted strLe proc.getFilterOptions.collections ∧
      proc.getFilterOptions.collections.Nodup ∧ [] ∉ proc.getFilterOptions.collections) := by
  obtain ⟨h1, h2, h3, h4, h5, h6, h7, h8⟩ := h
  unfold DataProcessor.getFilterOptions
  refine ⟨⟨?_, ?_, ?_⟩, ⟨?_, ?_, ?_⟩, ⟨?_, ?_, ?_⟩, ⟨?_, ?_, ?_⟩⟩
  · exact List.sorted_insertionSort strLe _
  · exact ((List.perm_insertionSort strLe _).nodup_iff).mpr h1
  · intro hmem; exact h2 (((List.perm_insertionSort strLe _).mem_iff).mp hmem)
  · exact List.sorted_insertionSort strLe _
  · exact ((List.perm_insertionSort strLe _).nodup_iff).mpr h3
  · intro hmem; exact h4 (((List.perm_insertionSort strLe _).mem_iff).mp hmem)
  · exact List.sorted_insertionSort strLe _
  · exact ((List.perm_insertionSort strLe _).nodup_iff).mpr h5
  · intro hmem; exact h6 (((List.perm_insertionSort strLe _).mem_iff).mp hmem)
  · exact List.sorted_insertionSort strLe _
  · exact ((List.perm_insertionSort strLe _).nodup_iff).mpr h7
  · intro hmem; exact h8 (((List.perm_insertionSort strLe _).mem_iff).mp hmem)

/-! ## Claim theorems -/

/-- C3 counterexample: for the source field "jazz, jazz, ,classic",
DataLoader.parseCollections keeps the duplicate token and the empty token
(and DataProcessor.parseColors keeps the duplicate), instead of yielding
exactly the set with "jazz" and "classic". -/
theorem multivalue_tokens_cex :
    DataLoader.parseCollections "jazz, jazz, ,classic".data =
      ["jazz".data, "jazz".data, [], "classic".data] ∧
    DataProcessor.parseColors "jazz, jazz, ,classic".data =
      ["jazz".data, "jazz".data, "classic".data] := by
  constructor
  · decide
  · decide

/-- C3 amended: only DataLoader.parseColors guarantees both set properties
(no duplicate and no empty token).  DataLoader.parseTags deduplicates but can
keep empty tokens; DataProcessor.parseColors and
DataProcessor.parseCollections drop empty tokens but can keep duplicates;
DataLoader.parseCollections can keep both. -/
theorem multivalue_tokens_amended :
    (∀ s : List Char, (DataLoader.parseColors s).Nodup ∧ [] ∉ DataLoader.parseColors s) ∧
    (∀ s : List Char, (DataLoader.parseTags s).Nodup) ∧
    (∀ s : List Char, [] ∉ DataProcessor.parseColors s ∧ [] ∉ DataProcessor.parseCollections s) := by
  refine ⟨?_, ?_, ?_⟩
  · intro s
    constructor
    · unfold DataLoader.parseColors
      split
      · exact List.nodup_nil
      · exact dedupFirst_nodup _
    · unfold DataLoader.parseColors
      split
      · simp
      · intro hmem
        obtain ⟨y, hy, hmap⟩ := List.mem_map.mp (dedupFirst_mem.mp hmem)
        have hne := (scanColorsFuel_mem s.length false s y hy).2
        exact hne (List.map_eq_nil_iff.mp hmap)
  · intro s
    unfold DataLoader.parseTags
    split
    · exact List.nodup_nil
    · exact dedupFirst_nodup _
  · intro s
    exact ⟨dp_parseColors_not_nil s, dp_parseCollections_not_nil s⟩

/-- C5: the color heuristic collects, from the fixed closed vocabulary, the
word-boundary occurrences in the text, each at most once: the spec scenario
"Pink, green, blue, cool tone" yields exactly pink, green, blue, cool (no
"tone"); repeated occurrences are collected once; and in general the result
is duplicate-free and drawn from the vocabulary. -/
theorem color_heuristic_spec :
    DataLoader.parseColors "Pink, green, blue, cool tone".data =
      ["pink", "green", "blue", "cool"].map String.data ∧
    DataLoader.parseColors "red RED red warm".data = ["red", "warm"].map String.data ∧
    ∀ s : List Char, (DataLoader.parseColors s).Nodup ∧ DataLoader.parseColors s ⊆ colorVocab := by
  refine ⟨by decide, by decide, ?_⟩
  intro s
  constructor
  · unfold DataLoader.parseColors
    split
    · exact List.nodup_nil
    · exact dedupFirst_nodup _
  · intro x hx
    unfold DataLoader.parseColors at hx
    split at hx
    · simp at hx
    · obtain ⟨y, hy, rfl⟩ := List.mem_map.mp (dedupFirst_mem.mp hx)
      exact (scanColorsFuel_mem s.length false s y hy).1

/-- C7 counterexample: on the line a,"b""c",d the data.js field splitter
does not collapse the doubled quote: the middle field comes out as b""c,
not the RFC4180 value b"c. -/
theorem csv_quoting_cex :
    DataProcessor.parseCSVRow "a,\"b\"\"c\",d".data ≠
      ["a".data, "b\"c".data, "d".data] := by
  decide

/-- C7 amended: CSVParser.parseCSVLine implements RFC4180-style quoting on
the claim's exemplar lines (a comma inside quotes does not split; a doubled
quote yields one literal quote), while DataProcessor.parseCSVRow keeps a
quoted comma unsplit but renders the doubled quote as two literal quote
characters. -/
theorem csv_quoting_amended :
    CSVParser.parseCSVLine "a,\"b\"\"c\",d".data = ["a".data, "b\"c".data, "d".data] ∧
    CSVParser.parseCSVLine "a,\"b,c\",d".data = ["a".data, "b,c".data, "d".data] ∧
    DataProcessor.parseCSVRow "a,\"b,c\",d".data = ["a".data, "b,c".data, "d".data] ∧
    DataProcessor.parseCSVRow "a,\"b\"\"c\",d".data = ["a".data, "b\"\"c".data, "d".data] := by
  refine ⟨by decide, by decide, by decide, by decide⟩

/-- C4 counterexample: on a one-line input (header only, no data line)
DataProcessor.parseCSV silently returns the unchanged empty record
collection instead of failing with a malformed-input error. -/
theorem short_input_cex :
    (DataProcessor.parseCSV DataProcessor.new "cover,artist".data).records = [] := by
  decide

/-- C4 amended: when the trimmed input has fewer than two lines,
CSVParser.parseCSV fails with its malformed-input error, but
DataProcessor.parseCSV has no such check and leaves the record collection
exactly as it was. -/
theorem short_input_amended (text : List Char)
    (h : (splitOnChar '\n' (trimStr text)).length < 2) :
    CSVParser.parseCSV text =
      Except.error "CSV must have at least a header and one data row".data ∧
    ∀ proc : DataProcessor, (DataProcessor.parseCSV proc text).records = proc.records := by
  constructor
  · simp only [CSVParser.parseCSV]
    rw [if_pos h]
  · intro proc
    simp only [DataProcessor.parseCSV]
    have hd : (splitOnChar '\n' (trimStr text)).drop 1 = [] := by
      rcases hl : splitOnChar '\n' (trimStr text) with _ | ⟨a, as⟩
      · rfl
      · rw [hl] at h
        simp only [List.length_cons] at h
        have has : as = [] := List.length_eq_zero.mp (by omega)
        simp [has]
    rw [hd]
    rfl

/-- C4 witness: the single-line input "hello" has fewer than two lines and
CSVParser.parseCSV rejects it. -/
theorem short_input_witness :
    (splitOnChar '\n' (trimStr "hello".data)).length < 2 ∧
    CSVParser.parseCSV "hello".data =
      Except.error "CSV must have at least a header and one data row".data :=
  ⟨by decide, (short_input_amended "hello".data (by decide)).1⟩

/-- C6 counterexample: against the two-field header "cover,artist", the
three-field data line "X,Trip,EXTRA" is accepted by DataProcessor.parseCSV
(its loop keeps any line with at least as many fields as the header), so the
mismatched longer line does contribute a record. -/
theorem field_count_mismatch_cex :
    (DataProcessor.parseCSVRow "cover,artist".data).length = 2 ∧
    (DataProcessor.parseCSVRow "X,Trip,EXTRA".data).length = 3 ∧
    (DataProcessor.parseCSV DataProcessor.new "cover,artist\nX,Trip,EXTRA".data).records.length = 1 := by
  refine ⟨by decide, by decide, by decide⟩

/-- C6 amended: CSVParser.parseCSV accepts exactly the data lines whose
parsed field count equals the header count (a silent per-row skip), while
DataProcessor.parseCSV skips only the lines with fewer fields than the
header and accepts every line with at least as many. -/
theorem field_count_mismatch_amended (text : List Char)
    (recs : List (List (List Char × CSVValue)))
    (h : CSVParser.parseCSV text = Except.ok recs) :
    recs.length = ((splitOnChar '\n' (trimStr text)).drop 1).countP
        (fun line => decide ((CSVParser.parseCSVLine line).length =
          (CSVParser.parseCSVLine ((splitOnChar '\n' (trimStr text)).headD [])).length)) ∧
    ∀ (proc : DataProcessor) (t2 : List Char),
      (DataProcessor.parseCSV proc t2).records.length = proc.records.length +
        ((splitOnChar '\n' (trimStr t2)).drop 1).countP
          (fun line =>
            decide ((DataProcessor.parseCSVRow ((splitOnChar '\n' (trimStr t2)).headD [])).length ≤
              (DataProcessor.parseCSVRow line).length)) := by
  constructor
  · simp only [CSVParser.parseCSV] at h
    split at h
    · simp at h
    · simp only [Except.ok.injEq] at h
      subst h
      exact parseCSV_ok_length _ _
  · intro proc t2
    simp only [DataProcessor.parseCSV]
    rw [parseCSVLoop_records, List.length_append, rowsToRecords_length]

/-- C6 witness: on the input a,b / 1,2 / 1,2,3 CSVParser.parseCSV returns one
record (the exact-length line) and the count identity holds. -/
theorem field_count_mismatch_witness :
    CSVParser.parseCSV "a,b\n1,2\n1,2,3".data =
      Except.ok [[("a".data, CSVValue.str "1".data), ("b".data, CSVValue.str "2".data)]] ∧
    ([[("a".data, CSVValue.str "1".data), ("b".data, CSVValue.str "2".data)]] :
        List (List (List Char × CSVValue))).length =
      ((splitOnChar '\n' (trimStr "a,b\n1,2\n1,2,3".data)).drop 1).countP
        (fun line => decide ((CSVParser.parseCSVLine line).length =
          (CSVParser.parseCSVLine ((splitOnChar '\n'
            (trimStr "a,b\n1,2\n1,2,3".data)).headD [])).length)) :=
  ⟨by rfl,
    (field_count_mismatch_amended "a,b\n1,2\n1,2,3".data
      [[("a".data, CSVValue.str "1".data), ("b".data, CSVValue.str "2".data)]] (by rfl)).1⟩

/-- C10: DataProcessor.parseCSV accumulates: it appends the newly parsed
records to the state's existing records (the new records being exactly what
a fresh processor would produce), and because ids restart at the line index
of each parse, parsing the same two-line CSV twice on one processor yields
the id list [1, 1] — a duplicate. -/
theorem parseCSV_accumulates :
    (∀ (proc : DataProcessor) (csvData : List Char),
        (DataProcessor.parseCSV proc csvData).records =
          proc.records ++ (DataProcessor.parseCSV DataProcessor.new csvData).records) ∧
    ((DataProcessor.parseCSV (DataProcessor.parseCSV DataProcessor.new
        "cover,artist\nX,Miles".data) "cover,artist\nX,Miles".data).records.map Rec.id
      = [1, 1]) ∧
    ¬ ((DataProcessor.parseCSV (DataProcessor.parseCSV DataProcessor.new
        "cover,artist\nX,Miles".data) "cover,artist\nX,Miles".data).records.map Rec.id).Nodup := by
  refine ⟨?_, by decide, by decide⟩
  intro proc csvData
  simp only [DataProcessor.parseCSV]
  rw [parseCSVLoop_records, parseCSVLoop_records]
  simp [DataProcessor.new]

/-- C1 counterexample: data.js normalization keeps a row with an empty cover
field: the data line ",Bowie" yields exactly one record and its cover is
empty, so not every output record has a non-empty cover. -/
theorem required_fields_cex :
    ((DataProcessor.parseCSV DataProcessor.new "cover,artist\n,Bowie".data).records.map Rec.cover)
      = [[]] := by
  decide

/-- C1 amended: only DataLoader.processData drops rows missing cover or
artist (so all its outputs have both non-empty); parseCSVData requires cover
and artworkName instead (artist may be empty in its output); and
DataProcessor.createRecord performs no exclusion at all — it copies whatever
row[0] holds (possibly empty) into cover. -/
theorem required_fields_amended :
    (∀ rawData : List RawRow,
        [] ∉ (DataLoader.processData rawData).map LoadedItem.cover ∧
        [] ∉ (DataLoader.processData rawData).map LoadedItem.artist) ∧
    (∀ rows : List CSVRow,
        [] ∉ (parseCSVData rows).map Artwork.cover ∧
        [] ∉ (parseCSVData rows).map Artwork.artworkName) ∧
    (∀ (headers row : List (List Char)) (i : Nat),
        (DataProcessor.createRecord headers row i).cover = fieldAt row 0) := by
  refine ⟨?_, ?_, ?_⟩
  · intro rawData
    constructor
    · intro hmem
      obtain ⟨item, hitem, hcov⟩ := List.mem_map.mp hmem
      obtain ⟨j, row, hrow, rfl⟩ := processGo_mem _ _ _ hitem
      have hp := (List.mem_filter.mp hrow).2
      simp only [DataLoader.processRow] at hcov
      rw [hcov] at hp
      simp at hp
    · intro hmem
      obtain ⟨item, hitem, hart⟩ := List.mem_map.mp hmem
      obtain ⟨j, row, hrow, rfl⟩ := processGo_mem _ _ _ hitem
      have hp := (List.mem_filter.mp hrow).2
      simp only [DataLoader.processRow] at hart
      rw [hart] at hp
      simp at hp
  · intro rows
    constructor
    · intro hmem
      obtain ⟨a, ha, hcov⟩ := List.mem_map.mp hmem
      unfold parseCSVData at ha
      obtain ⟨item, hitem, rfl⟩ := List.mem_map.mp ha
      have hcov2 : item.cover = [] := hcov
      have hp := (List.mem_filter.mp hitem).2
      rw [hcov2] at hp
      simp at hp
    · intro hmem
      obtain ⟨a, ha, hart⟩ := List.mem_map.mp hmem
      unfold parseCSVData at ha
      obtain ⟨item, hitem, rfl⟩ := List.mem_map.mp ha
      have hart2 : item.artworkName = [] := hart
      have hp := (List.mem_filter.mp hitem).2
      rw [hart2] at hp
      simp at hp
  · intro headers row i
    rfl

/-- C2 counterexample: the predicate value "Jazz" is contained
case-insensitively in the record genre "Jazz Fusion", yet
DataProcessor.filterRecords and SimpleFilterManager.applyFilters drop the
record, because they compare the genre by strict equality rather than
substring containment. -/
theorem dimension_predicate_cex :
    includesList (toLowerStr "Jazz".data) (toLowerStr "Jazz Fusion".data) = true ∧
    DataProcessor.filterRecords ⟨[recJF], [], [], [], []⟩ { genre := some "Jazz".data } = [] ∧
    SimpleFilterManager.applyFilters [recJF] { genre := some "Jazz".data } = [] := by
  refine ⟨by decide, by decide, by decide⟩

/-- C2 amended: filterArtworks does keep a record exactly when the active
genre value is a case-insensitive substring of its genre field, but
DataProcessor.filterRecords and SimpleFilterManager.applyFilters keep it only
under exact (case-sensitive) equality, and filterRecords tests the collection
predicate by exact membership in the collections list. -/
theorem dimension_predicate_amended :
    (∀ (artworks : List Artwork) (g : List Char) (a : Artwork), g ≠ [] →
        (a ∈ filterArtworks artworks { genre := some g } ↔
          a ∈ artworks ∧ includesList (toLowerStr g) (toLowerStr a.songGenre) = true)) ∧
    (∀ (proc : DataProcessor) (g : List Char) (r : Rec), g ≠ [] →
        (r ∈ DataProcessor.filterRecords proc { genre := some g } ↔
          r ∈ proc.records ∧ r.genre = g)) ∧
    (∀ (records : List Rec) (g : List Char) (r : Rec), g ≠ [] →
        (r ∈ SimpleFilterManager.applyFilters records { genre := some g } ↔
          r ∈ records ∧ r.genre = g)) ∧
    (∀ (proc : DataProcessor) (c : List Char) (r : Rec), c ≠ [] →
        (r ∈ DataProcessor.filterRecords proc { collection := some c } ↔
          r ∈ proc.records ∧ c ∈ r.collections)) := by
  refine ⟨?_, ?_, ?_, ?_⟩
  · intro artworks g a hg
    have hg2 : g.isEmpty = false := by
      cases g
      · exact absurd rfl hg
      · rfl
    unfold filterArtworks
    rw [List.mem_filter]
    simp [vDimCheck, hg2]
  · intro proc g r hg
    have hg2 : g.isEmpty = false := by
      cases g
      · exact absurd rfl hg
      · rfl
    unfold DataProcessor.filterRecords
    rw [List.mem_filter]
    simp [hg2]
  · intro records g r hg
    have hg2 : g.isEmpty = false := by
      cases g
      · exact absurd rfl hg
      · rfl
    unfold SimpleFilterManager.applyFilters
    rw [List.mem_filter]
    simp [hg2]
  · intro proc c r hc
    have hc2 : c.isEmpty = false := by
      cases c
      · exact absurd rfl hc
      · rfl
    unfold DataProcessor.filterRecords
    rw [List.mem_filter]
    simp [hc2]

/-- C2 witness: the amended equivalence instantiated at the Jazz Fusion
record and the genre value "Jazz". -/
theorem dimension_predicate_witness :
    "Jazz".data ≠ ([] : List Char) ∧
    (recJF ∈ DataProcessor.filterRecords ⟨[recJF], [], [], [], []⟩ { genre := some "Jazz".data } ↔
      recJF ∈ (⟨[recJF], [], [], [], []⟩ : DataProcessor).records ∧
        recJF.genre = "Jazz".data) :=
  ⟨by decide,
    dimension_predicate_amended.2.1 ⟨[recJF], [], [], [], []⟩ "Jazz".data recJF (by decide)⟩

/-- C9 counterexample: DataLoader.search does not treat whitespace-only text
as an absent predicate: the one-word record is dropped by a single-space
search even though the collection is non-empty. -/
theorem search_whitespace_cex :
    DataLoader.search [itemOneWord] " ".data = [] ∧
    [itemOneWord] ≠ ([] : List LoadedItem) := by
  refine ⟨by decide, by decide⟩

/-- C9 amended: search with empty text returns all records and every search
result is a subset of the input (for DataLoader.search and
SimpleFilterManager.applyFilters alike); but whitespace-only text is
equivalent to no predicate only in SimpleFilterManager.applyFilters —
DataLoader.search matches the whitespace literally. -/
theorem search_monotonicity_amended :
    (∀ data : List LoadedItem, DataLoader.search data [] = data) ∧
    (∀ (data : List LoadedItem) (q : List Char), DataLoader.search data q ⊆ data) ∧
    (∀ (records : List Rec) (filters : SimpleFilters),
        SimpleFilterManager.applyFilters records filters ⊆ records) ∧
    (∀ (records : List Rec) (s : List Char), trimStr s = [] →
        SimpleFilterManager.applyFilters records { search := some s } = records) := by
  refine ⟨?_, ?_, ?_, ?_⟩
  · intro data
    simp only [DataLoader.search]
    apply List.filter_eq_self.mpr
    intro a _
    simp [toLowerStr, includes_nil]
  · intro data q
    exact List.filter_subset' _
  · intro records filters
    exact List.filter_subset' _
  · intro records s h
    simp only [SimpleFilterManager.applyFilters]
    apply List.filter_eq_self.mpr
    intro a _
    simp [h]

/-- C9 witness: the amended identity instantiated at a two-space query. -/
theorem search_monotonicity_witness :
    trimStr "  ".data = [] ∧
    SimpleFilterManager.applyFilters [recJF] { search := some "  ".data } = [recJF] :=
  ⟨by decide, search_monotonicity_amended.2.2.2 [recJF] "  ".data (by decide)⟩

/-- C8 counterexample: DataLoader.getFilterOptions does not sort — two
records loaded in the order rock, jazz produce the genre options
["rock", "jazz"], which is not lexicographically sorted — and getUniqueValues
can return an empty-string option (from the blank token splitting
"jazz, ,rock"). -/
theorem filter_options_cex :
    (DataLoader.getFilterOptions [itemRock, itemJazz]).genres =
      ["rock".data, "jazz".data] ∧
    ¬ List.Sorted strLe (DataLoader.getFilterOptions [itemRock, itemJazz]).genres ∧
    [] ∈ getUniqueValues [awJazzRock] (fun a => a.collections) := by
  refine ⟨by decide, ?_, by decide⟩
  intro hs
  rw [show (DataLoader.getFilterOptions [itemRock, itemJazz]).genres =
      ["rock".data, "jazz".data] from by decide] at hs
  rw [List.sorted_cons] at hs
  have h2 := hs.1 "jazz".data (by simp)
  exact absurd h2 (by decide)

/-- C8 amended: DataProcessor.getFilterOptions returns, for each dimension,
a lexicographically sorted duplicate-free list without empty values (for any
processor whose metadata sets satisfy the MetaOk invariant, which parseCSV
preserves); getUniqueValues returns sorted duplicate-free lists (but, per the
counterexample, possibly with empty tokens); DataLoader.getFilterOptions
returns duplicate-free lists that contain exactly the values occurring in
the records, in first-occurrence order, without sorting. -/
theorem filter_options_amended :
    (∀ (proc : DataProcessor) (csv : List Char), MetaOk proc →
        (List.Sorted strLe (DataProcessor.parseCSV proc csv).getFilterOptions.genres ∧
          (DataProcessor.parseCSV proc csv).getFilterOptions.genres.Nodup ∧
          [] ∉ (DataProcessor.parseCSV proc csv).getFilterOptions.genres) ∧
        (List.Sorted strLe (DataProcessor.parseCSV proc csv).getFilterOptions.artists ∧
          (DataProcessor.parseCSV proc csv).getFilterOptions.artists.Nodup ∧
          [] ∉ (DataProcessor.parseCSV proc csv).getFilterOptions.artists) ∧
        (List.Sorted strLe (DataProcessor.parseCSV proc csv).getFilterOptions.moods ∧
          (DataProcessor.parseCSV proc csv).getFilterOptions.moods.Nodup ∧
          [] ∉ (DataProcessor.parseCSV proc csv).getFilterOptions.moods) ∧
        (List.Sorted strLe (DataProcessor.parseCSV proc csv).getFilterOptions.collections ∧
          (DataProcessor.parseCSV proc csv).getFilterOptions.collections.Nodup ∧
          [] ∉ (DataProcessor.parseCSV proc csv).getFilterOptions.collections)) ∧
    (∀ (artworks : List Artwork) (field : Artwork → List Char),
        List.Sorted strLe (getUniqueValues artworks field) ∧
        (getUniqueValues artworks field).Nodup) ∧
    (∀ data : List LoadedItem,
        (DataLoader.getFilterOptions data).genres.Nodup ∧
        (DataLoader.getFilterOptions data).moods.Nodup ∧
        (DataLoader.getFilterOptions data).artists.Nodup ∧
        (DataLoader.getFilterOptions data).colors.Nodup ∧
        (DataLoader.getFilterOptions data).tags.Nodup) ∧
    (∀ (data : List LoadedItem) (x : List Char),
        (x ∈ (DataLoader.getFilterOptions data).genres ↔
          x ∈ data.map LoadedItem.songGenre) ∧
        (x ∈ (DataLoader.getFilterOptions data).colors ↔
          x ∈ data.flatMap LoadedItem.colors)) := by
  refine ⟨?_, ?_, ?_, ?_⟩
  · intro proc csv h
    have hm : MetaOk (DataProcessor.parseCSV proc csv) := by
      simp only [DataProcessor.parseCSV]
      exact parseCSVLoop_metaOk _ _ proc 1 h
    exact metaOk_getFilterOptions hm
  · intro artworks field
    unfold getUniqueValues
    exact ⟨List.sorted_insertionSort strLe _,
      ((List.perm_insertionSort strLe _).nodup_iff).mpr (dedupFirst_nodup _)⟩
  · intro data
    exact ⟨dedupFirst_nodup _, dedupFirst_nodup _, dedupFirst_nodup _,
      dedupFirst_nodup _, dedupFirst_nodup _⟩
  · intro data x
    exact ⟨dedupFirst_mem, dedupFirst_mem⟩

/-- C8 witness: a fresh processor satisfies MetaOk, and after loading one
two-line CSV its genre options are sorted. -/
theorem filter_options_witness :
    MetaOk DataProcessor.new ∧
    List.Sorted strLe (DataProcessor.parseCSV DataProcessor.new
      "cover,artist\nX,Miles".data).getFilterOptions.genres := by
  have h : MetaOk DataProcessor.new := by
    unfold MetaOk
    exact ⟨List.nodup_nil, List.not_mem_nil _, List.nodup_nil, List.not_mem_nil _,
      List.nodup_nil, List.not_mem_nil _, List.nodup_nil, List.not_mem_nil _⟩
  exact ⟨h,
    ((filter_options_amended.1 DataProcessor.new "cover,artist\nX,Miles".data h).1).1⟩
